import Mathlib

/-!
Verification of the RAG-MCP repository against its design specification.

The development shallowly embeds the two Python components the claims are
about:

* `rag_api.py` — the HTTP RAG service: the in-memory document store `DOCS`,
  the keyword retriever `simple_retrieve`, the generation client
  `call_gemini` (two-tier model fallback), the bearer-token guard
  `check_auth`, and the four protected endpoints.
* `src/server.py` — the MCP tool dispatcher `handle_call_tool` with its
  configuration state machine and result rendering.

Modelling conventions: Python strings are Lean `String`s, with `len`,
slicing, `str.lower` and `str.split()` modelled over the underlying
character list (`lowerStr`, `strTake`, `strLen`, `pyWords`); the Python
substring test `w in s` is `isSubstr`; `list.sort(key=..., reverse=True)`
is the stable insertion sort `stableSort` with the descending-key
comparison; a raised exception that escapes a handler is an
`Except.error`; the FastAPI boundary turns an uncaught exception into an
HTTP 500 response and an `HTTPException(401, ...)` into a 401 response.
The behaviour of the two remote Gemini model calls is an oracle carried
in `GenCfg`: each call either returns text or raises.
-/

/-- Python `str.lower()`, modelled character-wise. -/
def lowerStr (s : String) : String := ⟨s.data.map Char.toLower⟩

/-- Python `len(s)`: the number of characters of `s`. -/
def strLen (s : String) : Nat := s.data.length

/-- Python slicing `s[:n]`: the first `n` characters of `s`. -/
def strTake (s : String) (n : Nat) : String := ⟨s.data.take n⟩

/-- Helper for `isSubstr`: scan the haystack for an occurrence of the needle. -/
def isSubstrAux (needle : List Char) : List Char → Bool
  | [] => needle.isEmpty
  | c :: cs => needle.isPrefixOf (c :: cs) || isSubstrAux needle cs

/-- Python substring containment `needle in hay`. -/
def isSubstr (needle hay : String) : Bool := isSubstrAux needle.data hay.data

/-- Helper for `pyWords`: accumulate the current word (reversed) while scanning. -/
def pyWordsAux : List Char → List Char → List String
  | [], acc => if acc.isEmpty then [] else [String.mk acc.reverse]
  | c :: cs, acc =>
    if c.isWhitespace then
      if acc.isEmpty then pyWordsAux cs []
      else String.mk acc.reverse :: pyWordsAux cs []
    else pyWordsAux cs (c :: acc)

/-- Python `s.split()` with no separator argument: maximal runs of
non-whitespace characters; no empty words are produced. -/
def pyWords (s : String) : List String := pyWordsAux s.data []

/-- Python `sep.join(xs)`. -/
def pyJoin (sep : String) : List String → String
  | [] => ""
  | [x] => x
  | x :: y :: rest => x ++ sep ++ pyJoin sep (y :: rest)

/-- Stable insertion step: place `a` in front of the first element `b`
with `le a b`; used to model the stability of Python `list.sort`. -/
def insertByLe {α : Type} (le : α → α → Bool) (a : α) : List α → List α
  | [] => [a]
  | b :: bs => if le a b then a :: b :: bs else b :: insertByLe le a bs

/-- Stable sort by the Boolean relation `le`, modelling Python
`list.sort` (Timsort is stable; any stable sort is extensionally equal). -/
def stableSort {α : Type} (le : α → α → Bool) : List α → List α
  | [] => []
  | a :: as => insertByLe le a (stableSort le as)

namespace RagMCP

/-- Comparison used by `scored.sort(key=lambda x: x[0], reverse=True)` in
`simple_retrieve`: descending on the score component, so `a` may stay
before `b` exactly when `b`'s score is at most `a`'s. -/
def scoreDescLe (a b : Nat × String) : Bool := decide (b.1 ≤ a.1)

/-- Score of one document against the already lowercased, whitespace-split
query word list; from `rag_api.py` line 59:
`score = sum(1 for w in qwords if w in d.lower())`. -/
def doc_score (qwords : List String) (d : String) : Nat :=
  (qwords.map (fun w => if isSubstr w (lowerStr d) then 1 else 0)).sum

/-- Score of a document for a raw query string, as `simple_retrieve`
computes it: the query is lowercased and whitespace-split first. -/
def retrieval_score (query d : String) : Nat := doc_score (pyWords (lowerStr query)) d

/-- The retriever `simple_retrieve` from `rag_api.py` lines 55-63.  The
document store is passed explicitly (the Python code reads the module
global `DOCS`). -/
def simple_retrieve (docs : List String) (query : String) (top_k : Nat) : List String :=
  let qwords := pyWords (lowerStr query)
  let scored := docs.map (fun d => (doc_score qwords d, d))
  let sorted := stableSort scoreDescLe scored
  let kept := ((sorted.take top_k).filter (fun p => decide (0 < p.1))).map (fun p => p.2)
  if kept.isEmpty then docs.take 1 else kept

/-- Stage one of `simple_retrieve`: the scored pair list `scored`. -/
def retrScored (query : String) (docs : List String) : List (Nat × String) :=
  docs.map (fun d => (retrieval_score query d, d))

/-- Stage two of `simple_retrieve`: `scored` after the stable descending
sort. -/
def retrSorted (query : String) (docs : List String) : List (Nat × String) :=
  stableSort scoreDescLe (retrScored query docs)

/-- Stage three of `simple_retrieve`: the positively scored documents of
the first `top_k` sorted entries. -/
def retrKept (query : String) (docs : List String) (top_k : Nat) : List String :=
  (((retrSorted query docs).take top_k).filter (fun p => decide (0 < p.1))).map (fun p => p.2)

/-- Outcome of one remote model call (`GenerativeModel(...).generate_content`
followed by reading `.text`): either the produced text or a raised
exception carrying its message. -/
inductive CallOutcome where
  | ok (text : String)
  | exn (msg : String)
deriving DecidableEq

/-- Generation backend configuration: whether `genai` was imported and
configured with an API key, and the behaviour of the primary
(`gemini-2.5-flash`) and secondary (`gemini-1.0-pro`) model calls on each
prompt. -/
structure GenCfg where
  configured : Bool
  primary : String → CallOutcome
  secondary : String → CallOutcome

/-- The generation client `call_gemini` from `rag_api.py` lines 66-78.
When `genai` is not configured it synthesizes an answer from the whole
prompt.  Otherwise the primary model is tried; on an exception the
secondary model is tried, and the secondary call is NOT wrapped in a
`try`, so a failure there escapes as `Except.error`. -/
def call_gemini (cfg : GenCfg) (prompt : String) : Except String String :=
  if cfg.configured = false then .ok ("(Gemini not configured) " ++ prompt)
  else
    match cfg.primary prompt with
    | .ok t => .ok t
    | .exn _ =>
      match cfg.secondary prompt with
      | .ok t => .ok t
      | .exn e => .error e

/-- An HTTP error response produced at the service boundary: an explicit
`HTTPException(status, detail)` or an uncaught exception (status 500). -/
structure HTTPError where
  status : Nat
  detail : String
deriving DecidableEq

/-- The access guard `check_auth` from `rag_api.py` lines 81-83: any
presented value other than exactly `"Bearer " ++ token` (including an
absent header, modelled as `none`) raises `HTTPException(401, "Invalid token")`. -/
def check_auth (token : String) (auth : Option String) : Except HTTPError Unit :=
  if auth = some ("Bearer " ++ token) then .ok () else .error ⟨401, "Invalid token"⟩

/-- Request body of `POST /rag` (`RAGQuery` in `rag_api.py`). -/
structure RAGQuery where
  query : String
  extra_context : Option String := none

/-- Python truthiness of an optional string: `None` and the empty string
are falsy; this is the test `if body.extra_context:` performs. -/
def truthyOptStr : Option String → Bool
  | none => false
  | some s => !s.isEmpty

/-- Response body of `POST /rag`. -/
structure RagResponse where
  answer : String
  sources : List String
deriving DecidableEq

/-- The prompt assembled inline in `rag_endpoint`, `rag_api.py` lines 105-110. -/
def build_prompt (query : String) (docs : List String) : String :=
  "You are a RAG assistant. Use ONLY this context.\n\nContext:\n"
    ++ pyJoin "\n" docs
    ++ "\n\nQuestion: " ++ query
    ++ "\nAnswer clearly and mention which context you used."

/-- The `POST /rag` handler from `rag_api.py` lines 93-112.  `token` is the
configured `RAG_TOKEN` and `docs` the current document store.  An
exception escaping `call_gemini` surfaces as a 500 at the FastAPI
boundary. -/
def rag_endpoint (cfg : GenCfg) (token : String) (docs : List String)
    (auth : Option String) (body : RAGQuery) : Except HTTPError RagResponse :=
  match check_auth token auth with
  | .error e => .error e
  | .ok _ =>
    let retrieved := simple_retrieve docs body.query 3
    let used := if truthyOptStr body.extra_context
      then body.extra_context.getD "" :: retrieved else retrieved
    let prompt := build_prompt body.query used
    match call_gemini cfg prompt with
    | .ok answer => .ok ⟨answer, used⟩
    | .error e => .error ⟨500, e⟩

/-- The `POST /retrieve` handler from `rag_api.py` lines 115-119; returns
the pair rendered as `{query, results}`. -/
def retrieve_endpoint (token : String) (docs : List String)
    (auth : Option String) (query : String) : Except HTTPError (String × List String) :=
  match check_auth token auth with
  | .error e => .error e
  | .ok _ => .ok (query, simple_retrieve docs query 3)

/-- The `POST /summarize` handler from `rag_api.py` lines 122-130. -/
def summarize_endpoint (cfg : GenCfg) (token : String)
    (auth : Option String) (text : String) : Except HTTPError String :=
  match check_auth token auth with
  | .error e => .error e
  | .ok _ =>
    match call_gemini cfg ("Summarize the following text in 3-5 bullet points:\n\n" ++ text) with
    | .ok s => .ok s
    | .error e => .error ⟨500, e⟩

/-- Response body of `POST /ingest`. -/
structure IngestResult where
  status : String
  count : Nat
deriving DecidableEq

/-- The `POST /ingest` handler from `rag_api.py` lines 133-137: the new
document store (the mutated `DOCS`) is returned next to the response
body. -/
def ingest_endpoint (token : String) (docs : List String)
    (auth : Option String) (text : String) : Except HTTPError (List String × IngestResult) :=
  match check_auth token auth with
  | .error e => .error e
  | .ok _ =>
    let docs2 := docs ++ [text]
    .ok (docs2, ⟨"ok", docs2.length⟩)

/-- The seeded document store `DOCS` from `rag_api.py` lines 31-35. -/
def DOCS : List String :=
  ["This is a RAG MCP project. MCP server runs locally and forwards queries.",
   "The RAG HTTP endpoint is deployed on Render and protected with Bearer token.",
   "You can plug Gemini to generate final answers from retrieved context."]

/-- A generation configuration with no backend configured (no API key or
the `google.generativeai` import failed). -/
def cfgOff : GenCfg := ⟨false, fun _ => .exn "unused", fun _ => .exn "unused"⟩

/-- A generation configuration in which the primary and the secondary
model call both raise. -/
def cfgBothFail : GenCfg :=
  ⟨true, fun _ => .exn "primary boom", fun _ => .exn "fallback boom"⟩

end RagMCP

namespace McpServer

/-- A `TextContent` block returned to the MCP transport (the `type` field
is always the literal `"text"` and is omitted). -/
structure TextContent where
  text : String
deriving DecidableEq

/-- One entry of `AVAILABLE_TOOLS`: a `RagTool(api_token, base_url)`. -/
structure RagToolCfg where
  api_token : String
  base_url : String
deriving DecidableEq

/-- `RagTool.get_name` from `rag_tools.py`. -/
def ragToolName (_ : RagToolCfg) : String := "rag_docs"

/-- Default base URL used by `initialize_rag_tools` and `handle_call_tool`. -/
def DEFAULT_BASE_URL : String := "https://your-rag-service.com/api-path"

/-- The server state: the module global `AVAILABLE_TOOLS` (empty while
unconfigured). -/
structure ToolState where
  tools : List RagToolCfg
deriving DecidableEq

/-- Arguments of a tool call, as read by `arguments.get(...)`; `none`
models an absent key. -/
structure ToolArgs where
  api_token : Option String := none
  base_url : Option String := none
  query : Option String := none

/-- One entry of a successful RAG result's `sources` list: either a
non-dict value (carrying its Python `str()` rendering) or a dict with the
optional keys the formatter inspects.  The numeric score is carried as
its already formatted text (`f"{score:.3f}"`), since no claim concerns
the float formatting itself. -/
inductive SourceEntry where
  | plain (s : String)
  | dict (document : Option String) (scoreText : Option String) (content : Option String)
deriving DecidableEq

/-- The `rag_data` dict inside a successful result; `extra` stands for any
further keys (only their presence and serialization matter). -/
structure RagData where
  answer : Option String
  response : Option String
  sources : Option (List SourceEntry)
  extra : List (String × String) := []
deriving DecidableEq

/-- The value under the `data` key: the formatter only looks inside it
when it is a dict. -/
inductive DataVal where
  | dict (d : RagData)
  | nonDict
deriving DecidableEq

/-- Result of `await tool.execute(**arguments)`: a dict (the fields the
formatter reads, with `success` defaulting to `False` when absent) or a
non-dict value carrying its `str()` rendering. -/
inductive ExecResult where
  | dict (success : Bool) (message : Option String) (error : Option String)
      (data : Option DataVal) (query : Option String)
  | nonDict (rendered : String)
deriving DecidableEq

/-- Python truthiness of a dict: non-empty.  Used by
`if not details and rag_data:`. -/
def ragDataTruthy (d : RagData) : Bool :=
  d.answer.isSome || d.response.isSome || d.sources.isSome || !d.extra.isEmpty

/-- Stand-in for `json.dumps(rag_data, indent=2, ensure_ascii=False)`;
the exact text is not load-bearing for any claim, only that some
serialization of the dict is rendered. -/
def dumpsRagData (d : RagData) : String :=
  pyJoin ", "
    ((match d.answer with | some a => ["answer: " ++ a] | none => []) ++
     (match d.response with | some r => ["response: " ++ r] | none => []) ++
     (match d.sources with | some _ => ["sources: [...]"] | none => []) ++
     d.extra.map (fun kv => kv.1 ++ ": " ++ kv.2))

/-- Rendering of the `i`-th (1-based) source entry inside
`handle_call_tool`, `server.py` lines 175-191: dict sources get their
`document`, formatted `score` and (truncated to 200 characters) `content`
fields; non-dict sources are rendered via `str()`. -/
def render_source (i : Nat) : SourceEntry → String
  | .plain s => "  " ++ toString i ++ ". " ++ s
  | .dict document scoreText content =>
    let info := "  " ++ toString i ++ ". "
    let info := match document with
      | some d => info ++ "Document: " ++ d
      | none => info
    let info := match scoreText with
      | some sc => info ++ " (Score: " ++ sc ++ ")"
      | none => info
    match content with
    | some c =>
      info ++ "\n     Content: " ++ (if 200 < strLen c then strTake c 200 ++ "..." else c)
    | none => info

/-- The result formatting of `handle_call_tool`, `server.py` lines
157-219: success dicts are rendered from their RAG fields, failure dicts
from `message`/`error`, non-dicts via `str()`. -/
def formatResult : ExecResult → List TextContent
  | .nonDict rendered => [⟨rendered⟩]
  | .dict success message error data query =>
    if success then
      let msg := message.getD "Operation completed successfully"
      let fromData : List String :=
        match data with
        | some (.dict rd) =>
          let d1 : List String :=
            match rd.answer with
            | some a => ["Response: " ++ a]
            | none =>
              match rd.response with
              | some r => ["Response: " ++ r]
              | none => []
          let d2 : List String :=
            match rd.sources with
            | some srcs =>
              ["Source Documents:"] ++ (List.enumFrom 1 srcs).map (fun p => render_source p.1 p.2)
            | none => []
          let d12 := d1 ++ d2
          if d12.isEmpty && ragDataTruthy rd then ["RAG Data: " ++ dumpsRagData rd] else d12
        | some .nonDict => []
        | none => []
      let details := fromData ++ (match query with | some q => ["Query: " ++ q] | none => [])
      if details.isEmpty then [⟨msg⟩] else [⟨pyJoin "\n" details⟩]
    else
      [⟨(message.getD "Operation failed") ++ "\n\nError details: " ++ (error.getD "Unknown error")⟩]

/-- Python `str()` of a list of strings, as in the f-string
`Available tools: {[t.get_name() for t in AVAILABLE_TOOLS]}`. -/
def pyStrList (l : List String) : String :=
  "[" ++ pyJoin ", " (l.map (fun s => "\x27" ++ s ++ "\x27")) ++ "]"

/-- The tool-call dispatcher `handle_call_tool` from `server.py` lines
95-240.  `exec` is the oracle for `await tool.execute(**arguments)` (a
network call); the returned pair is the emitted `TextContent` list and
the state of `AVAILABLE_TOOLS` afterwards. -/
def handle_call_tool (st : ToolState) (name : String) (args : ToolArgs)
    (exec : RagToolCfg → ToolArgs → ExecResult) : List TextContent × ToolState :=
  if name = "configure_rag" then
    match args.api_token with
    | none => ([⟨"Error: api_token parameter is required for configuration"⟩], st)
    | some tok =>
      if tok.isEmpty then
        ([⟨"Error: api_token parameter is required for configuration"⟩], st)
      else
        let burl := args.base_url.getD DEFAULT_BASE_URL
        ([⟨"RAG tools configured successfully with base URL: " ++ burl⟩], ⟨[⟨tok, burl⟩]⟩)
  else if st.tools.isEmpty then
    ([⟨"RAG tools not configured. Please call \x27configure_rag\x27 tool first with your API token."⟩],
      st)
  else
    match st.tools.find? (fun t => ragToolName t == name) with
    | none =>
      ([⟨"Tool \x27" ++ name ++ "\x27 not found. Available tools: "
          ++ pyStrList (st.tools.map ragToolName)⟩], st)
    | some tool => (formatResult (exec tool args), st)

end McpServer

/-! Helper lemmas about the stable insertion sort. -/

theorem insertByLe_perm {α : Type} (le : α → α → Bool) (a : α) (l : List α) :
    (insertByLe le a l).Perm (a :: l) := by
  induction l with
  | nil => exact List.Perm.refl _
  | cons b bs ih =>
    simp only [insertByLe]
    cases hab : le a b with
    | true => simp
    | false =>
      simp only [Bool.false_eq_true, if_false]
      exact (ih.cons b).trans (List.Perm.swap a b bs)

theorem stableSort_perm {α : Type} (le : α → α → Bool) (l : List α) :
    (stableSort le l).Perm l := by
  induction l with
  | nil => exact List.Perm.refl _
  | cons a as ih =>
    simp only [stableSort]
    exact (insertByLe_perm le a (stableSort le as)).trans (ih.cons a)

theorem pairwise_insertByLe {α : Type} {le : α → α → Bool}
    (total : ∀ a b, le a b = true ∨ le b a = true)
    (htrans : ∀ a b c, le a b = true → le b c = true → le a c = true)
    (a : α) {l : List α} (h : l.Pairwise (fun x y => le x y = true)) :
    (insertByLe le a l).Pairwise (fun x y => le x y = true) := by
  induction l with
  | nil => simp [insertByLe]
  | cons b bs ih =>
    rcases h with - | ⟨hb, hbs⟩
    simp only [insertByLe]
    cases hab : le a b with
    | true =>
      refine List.Pairwise.cons ?_ (List.Pairwise.cons hb hbs)
      intro x hx
      rcases List.mem_cons.mp hx with rfl | hx
      · exact hab
      · exact htrans a b x hab (hb x hx)
    | false =>
      simp only [Bool.false_eq_true, if_false]
      have hba : le b a = true := by
        rcases total a b with h1 | h1
        · exact absurd h1 (by simp [hab])
        · exact h1
      refine List.Pairwise.cons ?_ (ih hbs)
      intro x hx
      have hx2 : x = a ∨ x ∈ bs := by
        have := (insertByLe_perm le a bs).mem_iff.mp hx
        simpa using this
      rcases hx2 with rfl | hx2
      · exact hba
      · exact hb x hx2

theorem stableSort_pairwise {α : Type} {le : α → α → Bool}
    (total : ∀ a b, le a b = true ∨ le b a = true)
    (htrans : ∀ a b c, le a b = true → le b c = true → le a c = true)
    (l : List α) :
    (stableSort le l).Pairwise (fun x y => le x y = true) := by
  induction l with
  | nil => simp [stableSort]
  | cons a as ih =>
    simp only [stableSort]
    exact pairwise_insertByLe total htrans a ih

theorem filter_insertByLe {α : Type} {le : α → α → Bool} {P : α → Bool}
    (hP : ∀ a b, P a = true → P b = true → le a b = true)
    (a : α) (l : List α) :
    (insertByLe le a l).filter P = (a :: l).filter P := by
  induction l with
  | nil => rfl
  | cons b bs ih =>
    simp only [insertByLe]
    cases hab : le a b with
    | true => simp
    | false =>
      simp only [Bool.false_eq_true, if_false]
      cases hPa : P a with
      | false =>
        simp only [List.filter_cons, hPa, ih]
        simp
      | true =>
        have hPb : P b = false := by
          cases hPbv : P b with
          | false => rfl
          | true => exact absurd (hP a b hPa hPbv) (by simp [hab])
        simp only [List.filter_cons, hPa, hPb, ih]
        simp

theorem stableSort_filter {α : Type} {le : α → α → Bool} {P : α → Bool}
    (hP : ∀ a b, P a = true → P b = true → le a b = true) (l : List α) :
    (stableSort le l).filter P = l.filter P := by
  induction l with
  | nil => rfl
  | cons a as ih =>
    simp only [stableSort]
    rw [filter_insertByLe hP a (stableSort le as)]
    simp only [List.filter_cons, ih]

theorem pairwise_take_one {α : Type} {R : α → α → Prop} (l : List α) :
    (l.take 1).Pairwise R := by
  cases l with
  | nil => simp
  | cons a as => simp

namespace RagMCP

/-! Helper lemmas about the retrieval pipeline. -/

theorem scoreDescLe_total : ∀ a b : Nat × String, scoreDescLe a b = true ∨ scoreDescLe b a = true := by
  intro a b
  simp only [scoreDescLe, decide_eq_true_eq]
  omega

theorem scoreDescLe_trans : ∀ a b c : Nat × String,
    scoreDescLe a b = true → scoreDescLe b c = true → scoreDescLe a c = true := by
  intro a b c
  simp only [scoreDescLe, decide_eq_true_eq]
  omega

theorem simple_retrieve_eq (docs : List String) (query : String) (k : Nat) :
    simple_retrieve docs query k =
      if (retrKept query docs k).isEmpty then docs.take 1 else retrKept query docs k := rfl

theorem mem_retrScored_fst {query : String} {docs : List String} {p : Nat × String}
    (hp : p ∈ retrScored query docs) : p.1 = retrieval_score query p.2 := by
  rcases List.mem_map.mp hp with ⟨d, -, rfl⟩
  rfl

theorem mem_retrSorted_fst {query : String} {docs : List String} {p : Nat × String}
    (hp : p ∈ retrSorted query docs) : p.1 = retrieval_score query p.2 :=
  mem_retrScored_fst ((stableSort_perm scoreDescLe (retrScored query docs)).mem_iff.mp hp)

theorem retrSorted_pairwise (query : String) (docs : List String) :
    (retrSorted query docs).Pairwise (fun a b => scoreDescLe a b = true) :=
  stableSort_pairwise scoreDescLe_total scoreDescLe_trans _

theorem retrKept_sublist_retrSorted (query : String) (docs : List String) (k : Nat) :
    ((((retrSorted query docs).take k).filter (fun p => decide (0 < p.1)))).Sublist
      (retrSorted query docs) :=
  (List.filter_sublist _).trans (List.take_sublist k _)

theorem retrKept_pairwise (query : String) (docs : List String) (k : Nat) :
    (retrKept query docs k).Pairwise
      (fun a b => retrieval_score query b ≤ retrieval_score query a) := by
  rw [retrKept, List.pairwise_map]
  refine List.Pairwise.imp_of_mem ?_
    (List.Pairwise.sublist (retrKept_sublist_retrSorted query docs k) (retrSorted_pairwise query docs))
  intro p q hp hq hpq
  have h1 := mem_retrSorted_fst ((retrKept_sublist_retrSorted query docs k).subset hp)
  have h2 := mem_retrSorted_fst ((retrKept_sublist_retrSorted query docs k).subset hq)
  simp only [scoreDescLe, decide_eq_true_eq] at hpq
  omega

theorem retrKept_length (query : String) (docs : List String) (k : Nat) :
    (retrKept query docs k).length ≤ k := by
  rw [retrKept, List.length_map]
  refine le_trans (List.length_filter_le _ _) ?_
  rw [List.length_take]
  exact min_le_left _ _

theorem retrKept_pos (query : String) (docs : List String) (k : Nat) :
    ∀ d ∈ retrKept query docs k, 0 < retrieval_score query d := by
  intro d hd
  rcases List.mem_map.mp hd with ⟨p, hp, rfl⟩
  have hp2 := List.mem_filter.mp hp
  have hfst := mem_retrSorted_fst ((List.take_sublist k _).subset hp2.1)
  have hpos : 0 < p.1 := by simpa using hp2.2
  omega

theorem retrKept_filter_sublist (query : String) (docs : List String) (k : Nat) (s : Nat) :
    ((retrKept query docs k).filter (fun d => decide (retrieval_score query d = s))).Sublist
      (docs.filter (fun d => decide (retrieval_score query d = s))) := by
  have hP : ∀ a b : Nat × String, decide (a.1 = s) = true → decide (b.1 = s) = true →
      scoreDescLe a b = true := by
    intro a b ha hb
    simp only [decide_eq_true_eq] at ha hb
    simp only [scoreDescLe, decide_eq_true_eq]
    omega
  have hstab : (retrSorted query docs).filter (fun p => decide (p.1 = s)) =
      (retrScored query docs).filter (fun p => decide (p.1 = s)) :=
    stableSort_filter hP _
  have hcongr1 : (retrSorted query docs).filter (fun p => decide (retrieval_score query p.2 = s)) =
      (retrSorted query docs).filter (fun p => decide (p.1 = s)) :=
    List.filter_congr (fun p hp => by rw [mem_retrSorted_fst hp])
  have hcongr2 : (retrScored query docs).filter (fun p => decide (p.1 = s)) =
      (retrScored query docs).filter (fun p => decide (retrieval_score query p.2 = s)) :=
    List.filter_congr (fun p hp => by rw [mem_retrScored_fst hp])
  have hbase : (retrScored query docs).filter (fun p => decide (retrieval_score query p.2 = s)) =
      (docs.filter (fun d => decide (retrieval_score query d = s))).map
        (fun d => (retrieval_score query d, d)) := by
    rw [retrScored, List.filter_map]
    rfl
  have hchain : ((((retrSorted query docs).take k).filter (fun p => decide (0 < p.1))).filter
        (fun p => decide (retrieval_score query p.2 = s))).Sublist
      ((retrSorted query docs).filter (fun p => decide (retrieval_score query p.2 = s))) :=
    List.Sublist.filter _ (retrKept_sublist_retrSorted query docs k)
  rw [hcongr1, hstab, hcongr2, hbase] at hchain
  have hmapped := List.Sublist.map (fun p : Nat × String => p.2) hchain
  rw [List.map_map] at hmapped
  have hid : ∀ l : List String,
      l.map ((fun p : Nat × String => p.2) ∘ (fun d => (retrieval_score query d, d))) = l := by
    intro l
    induction l with
    | nil => rfl
    | cons a as ih =>
      rw [List.map_cons, ih]
      rfl
  rw [hid] at hmapped
  rw [retrKept, List.filter_map]
  exact hmapped

theorem mem_retrKept_of_pos (query : String) (docs : List String) (k : Nat) (d : String)
    (hd : d ∈ docs) (hs : 0 < retrieval_score query d) (hk : docs.length ≤ k) :
    d ∈ retrKept query docs k := by
  have hlen : (retrSorted query docs).length = docs.length := by
    simp only [retrSorted, retrScored]
    rw [(stableSort_perm _ _).length_eq, List.length_map]
  have htake : (retrSorted query docs).take k = retrSorted query docs :=
    List.take_of_length_le (by omega)
  have hmem1 : (retrieval_score query d, d) ∈ retrScored query docs :=
    List.mem_map_of_mem _ hd
  have hmem2 : (retrieval_score query d, d) ∈ retrSorted query docs :=
    (stableSort_perm scoreDescLe (retrScored query docs)).mem_iff.mpr hmem1
  have hmem3 : (retrieval_score query d, d) ∈
      ((retrSorted query docs).take k).filter (fun p => decide (0 < p.1)) := by
    rw [htake]
    exact List.mem_filter.mpr ⟨hmem2, by simpa using hs⟩
  exact List.mem_map_of_mem (fun p => p.2) hmem3

theorem simple_retrieve_ne_nil (docs : List String) (query : String) (k : Nat)
    (h : docs ≠ []) : simple_retrieve docs query k ≠ [] := by
  rw [simple_retrieve_eq]
  cases hke : (retrKept query docs k).isEmpty with
  | false =>
    simp only [hke, Bool.false_eq_true, if_false]
    intro heq
    rw [heq] at hke
    exact absurd hke (by simp)
  | true =>
    simp only [hke, if_true]
    cases docs with
    | nil => exact absurd rfl h
    | cons a as => simp

end RagMCP

namespace RagMCP

theorem mem_retrSorted_snd {query : String} {docs : List String} {p : Nat × String}
    (hp : p ∈ retrSorted query docs) : p.2 ∈ docs := by
  have hps : p ∈ retrScored query docs :=
    (stableSort_perm scoreDescLe (retrScored query docs)).mem_iff.mp hp
  rcases List.mem_map.mp hps with ⟨d, hd, rfl⟩
  exact hd

theorem doc_score_eq_zero {qwords : List String} {d : String}
    (hw : ∀ w ∈ qwords, isSubstr w (lowerStr d) = false) : doc_score qwords d = 0 := by
  induction qwords with
  | nil => rfl
  | cons w ws ih =>
    have h1 : isSubstr w (lowerStr d) = false := hw w (List.mem_cons_self w ws)
    have h2 : doc_score ws d = 0 := ih (fun x hx => hw x (List.mem_cons_of_mem w hx))
    simp only [doc_score, List.map_cons, List.sum_cons, h1, Bool.false_eq_true, if_false] at h2 ⊢
    omega

theorem retrKept_eq_nil_of_all_zero (query : String) (docs : List String) (k : Nat)
    (h0 : ∀ d ∈ docs, retrieval_score query d = 0) : retrKept query docs k = [] := by
  rw [retrKept, List.map_eq_nil_iff, List.filter_eq_nil_iff]
  intro p hp
  have hmem : p ∈ retrSorted query docs := (List.take_sublist k _).subset hp
  have hfst := mem_retrSorted_fst hmem
  have hzero := h0 p.2 (mem_retrSorted_snd hmem)
  simp only [decide_eq_true_eq]
  omega

theorem doc_score_eq_countP (qwords : List String) (d : String) :
    doc_score qwords d = qwords.countP (fun w => isSubstr w (lowerStr d)) := by
  induction qwords with
  | nil => rfl
  | cons w ws ih =>
    simp only [doc_score, List.map_cons, List.sum_cons, List.countP_cons] at ih ⊢
    cases h : isSubstr w (lowerStr d) <;> simp [h] <;> omega

theorem doc_score_append (ws1 ws2 : List String) (d : String) :
    doc_score (ws1 ++ ws2) d = doc_score ws1 d + doc_score ws2 d := by
  simp only [doc_score, List.map_append, List.sum_append]

/-! Claim theorems for the HTTP RAG service. -/

/-- Claim C1, counterexample: with both model calls failing, `call_gemini`
does NOT return a degraded answer: the exception of the secondary call
escapes, and the authorized `/rag` caller receives a 500, not a 200 body
embedding the two error texts. -/
theorem C1_both_models_fail_raises :
    call_gemini cfgBothFail "any prompt" = Except.error "fallback boom" ∧
    rag_endpoint cfgBothFail "test" DOCS (some "Bearer test") ⟨"cats", none⟩ =
      Except.error ⟨500, "fallback boom"⟩ :=
  ⟨rfl, rfl⟩

/-- Claim C1, amended: when the primary model call fails, `call_gemini`
retries the same prompt on the secondary model and returns its text on
success; but when the secondary call also fails, the exception propagates
out of `call_gemini` (so the HTTP caller gets a 5xx), instead of the
degraded answer string the original claim describes. -/
theorem C1_call_gemini_fallback (pr se : String → CallOutcome) (prompt e1 : String)
    (h : pr prompt = CallOutcome.exn e1) :
    call_gemini ⟨true, pr, se⟩ prompt =
      match se prompt with
      | CallOutcome.ok t => Except.ok t
      | CallOutcome.exn e2 => Except.error e2 := by
  simp only [call_gemini, h, Bool.true_eq_false, if_false]

/-- Claim C1, witness: a failing primary and a succeeding secondary at a
concrete prompt. -/
theorem C1_call_gemini_fallback_witness :
    call_gemini ⟨true, fun _ => CallOutcome.exn "E1", fun _ => CallOutcome.ok "recovered"⟩ "p" =
      Except.ok "recovered" :=
  C1_call_gemini_fallback (fun _ => CallOutcome.exn "E1") (fun _ => CallOutcome.ok "recovered")
    "p" "E1" rfl

/-- Claim C2, counterexample: with no backend configured, the seeded store
and query `"cats"`, the authorized `/rag` answer is the placeholder plus
the WHOLE prompt (and the sources are the first seeded document, which is
not `"Alpha doc about cats"`); no text of the form
`"... best match: <snippet>"` is produced. -/
theorem C2_not_configured_counterexample :
    rag_endpoint cfgOff "test" DOCS (some "Bearer test") ⟨"cats", none⟩ =
      Except.ok ⟨"(Gemini not configured) " ++ build_prompt "cats" (DOCS.take 1), DOCS.take 1⟩ ∧
    DOCS.take 1 ≠ ["Alpha doc about cats"] ∧
    isSubstr "best match" ("(Gemini not configured) " ++ build_prompt "cats" (DOCS.take 1)) = false :=
  ⟨rfl, by decide, by decide⟩

/-- Claim C2, amended: when no generation backend is configured,
`call_gemini` skips the model call and returns `"(Gemini not configured) "`
followed by the ENTIRE prompt (not just the first context snippet); with
the actual seeded store and query `"cats"` no snippet matches, so the
authorized `/rag` response carries the first seeded document as its only
source and the placeholder answer built from it. -/
theorem C2_not_configured_returns_prompt (cfg : GenCfg) (h : cfg.configured = false) :
    (∀ prompt, call_gemini cfg prompt = Except.ok ("(Gemini not configured) " ++ prompt)) ∧
    rag_endpoint cfg "test" DOCS (some "Bearer test") ⟨"cats", none⟩ =
      Except.ok ⟨"(Gemini not configured) " ++ build_prompt "cats" (DOCS.take 1), DOCS.take 1⟩ := by
  have hp : ∀ prompt, call_gemini cfg prompt = Except.ok ("(Gemini not configured) " ++ prompt) := by
    intro prompt
    simp [call_gemini, h]
  refine ⟨hp, ?_⟩
  have hret : simple_retrieve DOCS "cats" 3 = DOCS.take 1 := by decide
  simp [rag_endpoint, check_auth, truthyOptStr, hret, hp]

/-- Claim C2, witness: the amended behaviour at the concrete unconfigured
backend `cfgOff`. -/
theorem C2_not_configured_returns_prompt_witness :
    call_gemini cfgOff "p" = Except.ok "(Gemini not configured) p" ∧
    rag_endpoint cfgOff "test" DOCS (some "Bearer test") ⟨"cats", none⟩ =
      Except.ok ⟨"(Gemini not configured) " ++ build_prompt "cats" (DOCS.take 1), DOCS.take 1⟩ :=
  ⟨(C2_not_configured_returns_prompt cfgOff rfl).1 "p",
   (C2_not_configured_returns_prompt cfgOff rfl).2⟩

/-- Claim C3, counterexample: for a query matching nothing, the fallback
branch returns the first stored snippet although its score is 0, so not
every returned snippet has score greater than 0. -/
theorem C3_zero_score_fallback_returned :
    simple_retrieve ["Alpha doc about cats", "Beta doc about dogs"] "zzz" 3 =
      ["Alpha doc about cats"] ∧
    retrieval_score "zzz" "Alpha doc about cats" = 0 :=
  ⟨rfl, rfl⟩

/-- Claim C3, amended: `simple_retrieve` returns snippets sorted by
descending score; among equal scores the original store order is
preserved (the equal-score snippets of the result form a subsequence of
the equal-score snippets of the store); and EITHER the result has at most
`topK` entries, each scoring greater than 0, OR it is the fallback
`docs.take 1` (the first stored snippet, whose score may be 0). -/
theorem C3_retrieve_topk_sorted_stable (docs : List String) (query : String) (k : Nat) :
    (simple_retrieve docs query k).Pairwise
      (fun a b => retrieval_score query b ≤ retrieval_score query a) ∧
    (∀ s : Nat, ((simple_retrieve docs query k).filter
        (fun d => decide (retrieval_score query d = s))).Sublist
      (docs.filter (fun d => decide (retrieval_score query d = s)))) ∧
    (((simple_retrieve docs query k).length ≤ k ∧
        ∀ d ∈ simple_retrieve docs query k, 0 < retrieval_score query d) ∨
      simple_retrieve docs query k = docs.take 1) := by
  rw [simple_retrieve_eq]
  cases hke : (retrKept query docs k).isEmpty with
  | true =>
    rw [if_pos rfl]
    exact ⟨pairwise_take_one docs,
      fun s => List.Sublist.filter _ (List.take_sublist 1 docs), Or.inr rfl⟩
  | false =>
    rw [if_neg Bool.false_ne_true]
    exact ⟨retrKept_pairwise query docs k,
      fun s => retrKept_filter_sublist query docs k s,
      Or.inl ⟨retrKept_length query docs k, retrKept_pos query docs k⟩⟩

/-- Claim C3, witness: the sortedness part of the amended claim at a
concrete store, query and cutoff. -/
theorem C3_retrieve_topk_sorted_stable_witness :
    (simple_retrieve ["Alpha doc about cats", "Beta doc about dogs"] "cats dogs" 1).Pairwise
      (fun a b => retrieval_score "cats dogs" b ≤ retrieval_score "cats dogs" a) :=
  (C3_retrieve_topk_sorted_stable ["Alpha doc about cats", "Beta doc about dogs"] "cats dogs" 1).1

/-- Claim C4: when no lowercased query word occurs as a substring of any
stored snippet, `simple_retrieve` returns exactly the first stored
snippet; and on a non-empty store the retriever never returns an empty
list. -/
theorem C4_no_overlap_returns_first_doc (docs : List String) (query : String) (k : Nat)
    (hne : docs ≠ [])
    (hnw : ∀ w ∈ pyWords (lowerStr query), ∀ d ∈ docs, isSubstr w (lowerStr d) = false) :
    simple_retrieve docs query k = [docs.head hne] ∧
    (∀ q2 k2, simple_retrieve docs q2 k2 ≠ []) := by
  have h0 : ∀ d ∈ docs, retrieval_score query d = 0 := fun d hd =>
    doc_score_eq_zero (fun w hw => hnw w hw d hd)
  have hkept : retrKept query docs k = [] := retrKept_eq_nil_of_all_zero query docs k h0
  constructor
  · rw [simple_retrieve_eq, hkept]
    simp only [List.isEmpty_nil, if_true]
    obtain ⟨a, as, rfl⟩ := List.exists_cons_of_ne_nil hne
    rfl
  · intro q2 k2
    exact simple_retrieve_ne_nil docs q2 k2 hne

/-- Claim C4, witness: scenario B of the specification, on the two-element
store and the no-overlap query. -/
theorem C4_no_overlap_returns_first_doc_witness :
    simple_retrieve ["Alpha doc about cats", "Beta doc about dogs"] "zzz-no-match" 3 =
      ["Alpha doc about cats"] ∧
    simple_retrieve ["Alpha doc about cats", "Beta doc about dogs"] "zzz-no-match" 3 ≠ [] :=
  ⟨(C4_no_overlap_returns_first_doc ["Alpha doc about cats", "Beta doc about dogs"]
      "zzz-no-match" 3 (by decide) (by decide)).1,
   (C4_no_overlap_returns_first_doc ["Alpha doc about cats", "Beta doc about dogs"]
      "zzz-no-match" 3 (by decide) (by decide)).2 "zzz-no-match" 3⟩

end RagMCP

namespace RagMCP

/-- Claim C5: `check_auth` succeeds exactly on the literal
`"Bearer " ++ token`; on any other value (absent header, wrong token,
missing scheme) it yields the 401 `Invalid token` error, and every
protected endpoint then returns that 401 unchanged — no retrieval,
generation, or store mutation is reflected in the result. -/
theorem C5_auth_exact_match_guards_all_endpoints (token : String) (auth : Option String) :
    (check_auth token auth = Except.ok () ↔ auth = some ("Bearer " ++ token)) ∧
    (auth ≠ some ("Bearer " ++ token) →
      check_auth token auth = Except.error ⟨401, "Invalid token"⟩ ∧
      (∀ cfg docs body, rag_endpoint cfg token docs auth body =
        Except.error ⟨401, "Invalid token"⟩) ∧
      (∀ docs q, retrieve_endpoint token docs auth q = Except.error ⟨401, "Invalid token"⟩) ∧
      (∀ cfg t, summarize_endpoint cfg token auth t = Except.error ⟨401, "Invalid token"⟩) ∧
      (∀ docs t, ingest_endpoint token docs auth t = Except.error ⟨401, "Invalid token"⟩)) := by
  constructor
  · constructor
    · intro h
      by_contra hne
      simp [check_auth, hne] at h
    · intro h
      simp [check_auth, h]
  · intro hne
    have hca : check_auth token auth = Except.error ⟨401, "Invalid token"⟩ := by
      simp [check_auth, hne]
    exact ⟨hca,
      fun cfg docs body => by simp [rag_endpoint, hca],
      fun docs q => by simp [retrieve_endpoint, hca],
      fun cfg t => by simp [summarize_endpoint, hca],
      fun docs t => by simp [ingest_endpoint, hca]⟩

/-- Claim C5, witness: the exact credential passes; an absent header, a
wrong token and a missing scheme are all rejected with 401, and `/ingest`
with a bad credential returns the 401 (no appended store is produced). -/
theorem C5_auth_exact_match_guards_all_endpoints_witness :
    check_auth "test" (some "Bearer test") = Except.ok () ∧
    check_auth "test" none = Except.error ⟨401, "Invalid token"⟩ ∧
    check_auth "test" (some "Bearer wrong") = Except.error ⟨401, "Invalid token"⟩ ∧
    check_auth "test" (some "test") = Except.error ⟨401, "Invalid token"⟩ ∧
    ingest_endpoint "test" DOCS (some "test") "X" = Except.error ⟨401, "Invalid token"⟩ :=
  ⟨(C5_auth_exact_match_guards_all_endpoints "test" (some "Bearer test")).1.mpr rfl,
   ((C5_auth_exact_match_guards_all_endpoints "test" none).2 (by decide)).1,
   ((C5_auth_exact_match_guards_all_endpoints "test" (some "Bearer wrong")).2 (by decide)).1,
   ((C5_auth_exact_match_guards_all_endpoints "test" (some "test")).2 (by decide)).1,
   ((C5_auth_exact_match_guards_all_endpoints "test" (some "test")).2 (by decide)).2.2.2.2 DOCS "X"⟩

/-- Claim C6, counterexample: an authorized `/rag` request that carries
`extra_context` as the empty string — present, but falsy in Python — does
NOT get it prepended: the first source is the retrieved snippet, not the
supplied extra context. -/
theorem C6_empty_extra_context_not_prepended :
    rag_endpoint cfgOff "test" DOCS (some "Bearer test") ⟨"cats", some ""⟩ =
      Except.ok ⟨"(Gemini not configured) " ++ build_prompt "cats" (DOCS.take 1), DOCS.take 1⟩ ∧
    (DOCS.take 1).head? ≠ some "" :=
  ⟨rfl, by decide⟩

/-- Claim C6, amended: for every authorized `/rag` request that produces a
response, the `sources` list is exactly the snippet list fed into the
generation prompt, in the same order, with `extra_context` prepended as
the first element whenever it is present AND non-empty (an empty string
is falsy in Python and is treated as absent). -/
theorem C6_sources_equal_prompt_context (cfg : GenCfg) (token : String) (docs : List String)
    (auth : Option String) (q : String) (ec : Option String) (resp : RagResponse)
    (h : rag_endpoint cfg token docs auth ⟨q, ec⟩ = Except.ok resp) :
    resp.sources = (if truthyOptStr ec then ec.getD "" :: simple_retrieve docs q 3
      else simple_retrieve docs q 3) ∧
    call_gemini cfg (build_prompt q resp.sources) = Except.ok resp.answer := by
  unfold rag_endpoint at h
  cases hca : check_auth token auth with
  | error e =>
    rw [hca] at h
    exact absurd h (by simp)
  | ok u =>
    rw [hca] at h
    simp only at h
    cases hcg : call_gemini cfg (build_prompt q
        (if truthyOptStr ec then ec.getD "" :: simple_retrieve docs q 3
         else simple_retrieve docs q 3)) with
    | ok ans =>
      rw [hcg] at h
      injection h with h2
      subst h2
      exact ⟨rfl, hcg⟩
    | error e =>
      rw [hcg] at h
      exact absurd h (by simp)

/-- Claim C6, witness: the amended correspondence at a concrete
authorized request without extra context. -/
theorem C6_sources_equal_prompt_context_witness :
    DOCS.take 1 = (if truthyOptStr none then (none : Option String).getD "" ::
        simple_retrieve DOCS "cats" 3 else simple_retrieve DOCS "cats" 3) ∧
    call_gemini cfgOff (build_prompt "cats" (DOCS.take 1)) =
      Except.ok ("(Gemini not configured) " ++ build_prompt "cats" (DOCS.take 1)) :=
  (C6_sources_equal_prompt_context cfgOff "test" DOCS (some "Bearer test") "cats" none
    ⟨"(Gemini not configured) " ++ build_prompt "cats" (DOCS.take 1), DOCS.take 1⟩ rfl)

/-- Claim C7: an authorized `ingest` appends the text at the end of the
store (no validation, deduplication or cap), returns the new count, and
the text becomes eligible for retrieval: any query whose words match it
returns it once `top_k` covers the store. -/
theorem C7_ingest_appends_and_text_retrievable (token : String) (docs : List String)
    (auth : Option String) (text : String) (h : auth = some ("Bearer " ++ token)) :
    ingest_endpoint token docs auth text =
      Except.ok (docs ++ [text], ⟨"ok", docs.length + 1⟩) ∧
    (∀ query k, 0 < retrieval_score query text → docs.length + 1 ≤ k →
      text ∈ simple_retrieve (docs ++ [text]) query k) := by
  constructor
  · subst h
    simp [ingest_endpoint, check_auth]
  · intro query k hscore hk
    have hmem : text ∈ retrKept query (docs ++ [text]) k := by
      refine mem_retrKept_of_pos query (docs ++ [text]) k text (by simp) hscore ?_
      simpa using hk
    rw [simple_retrieve_eq]
    cases hke : (retrKept query (docs ++ [text]) k).isEmpty with
    | true =>
      rw [List.isEmpty_eq_true] at hke
      rw [hke] at hmem
      cases hmem
    | false =>
      rw [if_neg Bool.false_ne_true]
      exact hmem

/-- Claim C7, witness: scenario D of the specification — ingest a new
document with the valid credential, then retrieve it by one of its
words. -/
theorem C7_ingest_appends_and_text_retrievable_witness :
    ingest_endpoint "test" DOCS (some "Bearer test") "Gamma doc about birds" =
      Except.ok (DOCS ++ ["Gamma doc about birds"], ⟨"ok", 4⟩) ∧
    "Gamma doc about birds" ∈ simple_retrieve (DOCS ++ ["Gamma doc about birds"]) "birds" 4 :=
  ⟨(C7_ingest_appends_and_text_retrievable "test" DOCS (some "Bearer test")
      "Gamma doc about birds" rfl).1,
   (C7_ingest_appends_and_text_retrievable "test" DOCS (some "Bearer test")
      "Gamma doc about birds" rfl).2 "birds" 4 (by decide) (by decide)⟩

/-- Claim C8: the retrieval score of a snippet is the count of entries of
the lowercased whitespace-split query list that occur as substrings of
the lowercased snippet, and the count is additive over the split list, so
repeated query words are not deduplicated: each occurrence contributes
once. -/
theorem C8_score_counts_split_words_with_repeats (query d : String) :
    retrieval_score query d =
      (pyWords (lowerStr query)).countP (fun w => isSubstr w (lowerStr d)) ∧
    (∀ ws1 ws2 : List String, doc_score (ws1 ++ ws2) d = doc_score ws1 d + doc_score ws2 d) :=
  ⟨doc_score_eq_countP (pyWords (lowerStr query)) d, fun ws1 ws2 => doc_score_append ws1 ws2 d⟩

/-- Claim C8, witness: the count at a concrete repeated-word query — the
word `cats` occurs twice in the split list and contributes twice. -/
theorem C8_score_counts_split_words_with_repeats_witness :
    retrieval_score "cats cats" "Alpha doc about cats" =
      (pyWords (lowerStr "cats cats")).countP
        (fun w => isSubstr w (lowerStr "Alpha doc about cats")) ∧
    doc_score (["cats"] ++ ["cats"]) "Alpha doc about cats" =
      doc_score ["cats"] "Alpha doc about cats" + doc_score ["cats"] "Alpha doc about cats" :=
  ⟨(C8_score_counts_split_words_with_repeats "cats cats" "Alpha doc about cats").1,
   (C8_score_counts_split_words_with_repeats "cats cats" "Alpha doc about cats").2
     ["cats"] ["cats"]⟩

end RagMCP

namespace McpServer

/-- Claim C9: while `AVAILABLE_TOOLS` is empty, calling any tool other
than `configure_rag` returns the explanatory configure-first text and
leaves the state unchanged; the result does not depend on the tool
execution oracle at all (no query is executed), and being a total
function it propagates no exception. -/
theorem C9_unconfigured_guard (st : ToolState) (name : String) (args : ToolArgs)
    (exec exec2 : RagToolCfg → ToolArgs → ExecResult)
    (hempty : st.tools = []) (hname : name ≠ "configure_rag") :
    handle_call_tool st name args exec =
      ([⟨"RAG tools not configured. Please call \x27configure_rag\x27 tool first with your API token."⟩],
        st) ∧
    handle_call_tool st name args exec = handle_call_tool st name args exec2 := by
  have h1 : ∀ e : RagToolCfg → ToolArgs → ExecResult, handle_call_tool st name args e =
      ([⟨"RAG tools not configured. Please call \x27configure_rag\x27 tool first with your API token."⟩],
        st) := by
    intro e
    simp [handle_call_tool, hname, hempty]
  rw [h1 exec, h1 exec2]
  exact ⟨rfl, rfl⟩

/-- Claim C9, witness: invoking `rag_docs` on the empty tool state returns
the configure-first message whatever the execution oracle would do. -/
theorem C9_unconfigured_guard_witness :
    handle_call_tool ⟨[]⟩ "rag_docs" {} (fun _ _ => ExecResult.nonDict "x") =
      ([⟨"RAG tools not configured. Please call \x27configure_rag\x27 tool first with your API token."⟩],
        ⟨[]⟩) :=
  (C9_unconfigured_guard ⟨[]⟩ "rag_docs" {} (fun _ _ => ExecResult.nonDict "x")
    (fun _ _ => ExecResult.nonDict "y") rfl (by decide)).1

/-- Claim C10: a dict source entry with a `content` string is rendered as
the content-free rendering followed by the content, truncated to its
first 200 characters plus `"..."` exactly when it is longer than 200
characters, and in full otherwise. -/
theorem C10_source_content_truncated_at_200 (i : Nat) (document scoreText : Option String)
    (c : String) :
    render_source i (SourceEntry.dict document scoreText (some c)) =
      render_source i (SourceEntry.dict document scoreText none) ++ "\n     Content: " ++
        (if 200 < strLen c then strTake c 200 ++ "..." else c) ∧
    (strLen c ≤ 200 → render_source i (SourceEntry.dict document scoreText (some c)) =
      render_source i (SourceEntry.dict document scoreText none) ++ "\n     Content: " ++ c) ∧
    (200 < strLen c → render_source i (SourceEntry.dict document scoreText (some c)) =
      render_source i (SourceEntry.dict document scoreText none) ++ "\n     Content: " ++
        (strTake c 200 ++ "...")) := by
  have base : render_source i (SourceEntry.dict document scoreText (some c)) =
      render_source i (SourceEntry.dict document scoreText none) ++ "\n     Content: " ++
        (if 200 < strLen c then strTake c 200 ++ "..." else c) := rfl
  refine ⟨base, fun h => ?_, fun h => ?_⟩
  · rw [base, if_neg (by omega)]
  · rw [base, if_pos h]

set_option maxRecDepth 4000 in
/-- Claim C10, witness: a 201-character content is cut to 200 characters
plus the ellipsis; a short content is rendered in full. -/
theorem C10_source_content_truncated_at_200_witness :
    render_source 1 (SourceEntry.dict none none (some (String.mk (List.replicate 201 'a')))) =
      render_source 1 (SourceEntry.dict none none none) ++ "\n     Content: " ++
        (strTake (String.mk (List.replicate 201 'a')) 200 ++ "...") ∧
    render_source 1 (SourceEntry.dict none none (some "short")) =
      render_source 1 (SourceEntry.dict none none none) ++ "\n     Content: " ++ "short" :=
  ⟨(C10_source_content_truncated_at_200 1 none none
      (String.mk (List.replicate 201 'a'))).2.2 (by decide),
   (C10_source_content_truncated_at_200 1 none none "short").2.1 (by decide)⟩

end McpServer
